import Mathlib

/-!
Shallow embedding of the `component-agentTestter` repository:
`upgradescraper.py` (a Brave-search scraper with a 24h pickle cache,
randomized request profiles and heuristic result extraction) and
`readle.py` (a single-page article extractor).

External effects (wall clock, the random profile generator, the network
fetch, disk-write success, and CPython's per-process string-hash seed)
are threaded explicitly through an `Env` record.  Times are modelled as
integers: `datetime` values in seconds, `time.time()` samples in
milliseconds (so `int((t - start) * 1000)` becomes plain subtraction).
-/

namespace Scraper

/-! ### Python string primitives (models of the runtime / stdlib) -/

/-- Model of `list`-level `str.startswith`: `listStarts pre cs` is true iff
`pre` is an initial segment of `cs`. -/
def listStarts : List Char → List Char → Bool
  | [], _ => true
  | _ :: _, [] => false
  | p :: ps, c :: cs => p == c && listStarts ps cs

/-- Model of the Python `in` operator on strings, at the character-list
level: true iff `needle` occurs contiguously inside `hay`. -/
def listContains (needle : List Char) : List Char → Bool
  | [] => needle.isEmpty
  | c :: cs => listStarts needle (c :: cs) || listContains needle cs

/-- Model of `s.startswith(pre)` for Python strings. -/
def pyStartsWith (s pre : String) : Bool := listStarts pre.toList s.toList

/-- Model of `needle in hay` for Python strings. -/
def pyIn (needle hay : String) : Bool := listContains needle.toList hay.toList

/-- Model of Python `str.split(sep)` for a one-character separator:
keeps empty fields, so `"a//b".split("/") = ["a", "", "b"]` and
`"".split("/") = [""]`. -/
def pySplitChar (sep : Char) : List Char → List (List Char)
  | [] => [[]]
  | c :: cs =>
    if c = sep then [] :: pySplitChar sep cs
    else
      match pySplitChar sep cs with
      | [] => [[c]]
      | h :: t => (c :: h) :: t

/-- Model of Python `str.split()` (no argument): split on whitespace runs,
discarding empty fields. -/
def pySplitWs (s : String) : List String :=
  (s.split Char.isWhitespace).filter (fun t => t ≠ "")

/-- The function `clean_text` of `upgradescraper.py` (and, extensionally, of
`readle.py`): `' '.join(text.strip().split())`, with the
`if text else ""` truthiness guard of the scraper version.  The guard and
the leading `.strip()` do not change the result of `split()`. -/
def clean_text (text : String) : String :=
  if text = "" then "" else String.intercalate " " (pySplitWs text)

/-- Model of CPython's salted string hashing (`PYTHONHASHSEED` /
siphash-1-3): a deterministic 64-bit function of the per-process hash
seed and the text.  The exact mixing differs from CPython's, but it
preserves the two properties the development uses: the value is a
function of `(seed, text)`, and it genuinely depends on the seed. -/
def pyHash (seed : Nat) (s : String) : Nat :=
  if s = "" then 0
  else s.toList.foldl (fun h c => (h * 1000003 + c.toNat + seed) % 2 ^ 64) (seed % 2 ^ 64)

/-! ### Data model: the response envelope -/

/-- A Python value sitting in the `fetched_at` slot: a `datetime` object,
a valid ISO-format string, a malformed string (`fromisoformat` raises),
or `None`/absent (`dict.get` returned `None`). -/
inductive TimeVal where
  | dt (t : Int)
  | iso (t : Int)
  | badStr
  | noneVal
  deriving DecidableEq, Repr

/-- The `searchParameters` sub-dict of the envelope. -/
structure SearchParams where
  query : String
  engine : String
  gl : String
  hl : String
  type : String
  fetched_at : TimeVal
  latency_ms : Int
  deriving DecidableEq, Repr

/-- The `debug` sub-dict of the envelope. -/
structure DebugInfo where
  user_agent : String
  ip : String
  result_count : Nat
  deriving DecidableEq, Repr

/-- One organic result record; `date` is `none` when the `"date"` key is
absent from the dict. -/
structure SearchResult where
  position : Nat
  title : String
  link : String
  snippet : String
  domain : String
  date : Option String
  deriving DecidableEq, Repr

/-- The response envelope; `message` is `none` when the `"message"` key is
absent (the success shape). -/
structure Envelope where
  status : String
  message : Option String
  searchParameters : SearchParams
  organic_results : List SearchResult
  debug : DebugInfo
  deriving DecidableEq, Repr

/-! ### Cache store -/

/-- What the cache file for one key holds: no file, a file that fails to
unpickle (or lacks the `searchParameters` dict), or a stored envelope. -/
inductive CacheSlot where
  | absent
  | corrupt
  | stored (payload : Envelope)
  deriving DecidableEq, Repr

/-- The function `get_cache_key`: `str(hash(query))`.  CPython's `hash` on `str` is
salted by the per-process seed, so the seed is an explicit argument. -/
def get_cache_key (seed : Nat) (query : String) : String :=
  toString (pyHash seed query)

/-- The function `load_from_cache`: return the cached envelope when the file exists,
unpickles, carries a usable `fetched_at` (a `datetime`, or a string that
`fromisoformat` accepts) and `now - fetched_at < 24h`; every failure mode
is swallowed by the `except: pass` and yields `none`. -/
def load_from_cache (slot : CacheSlot) (now : Int) : Option Envelope :=
  match slot with
  | .absent => none
  | .corrupt => none
  | .stored p =>
    match p.searchParameters.fetched_at with
    | .dt t => if now - t < 24 * 3600 then some p else none
    | .iso t => if now - t < 24 * 3600 then some p else none
    | .badStr => none
    | .noneVal => none

/-- The function `save_to_cache`: first mutates
`data["searchParameters"]["fetched_at"]` to its `isoformat()` string,
then pickles the mutated dict to the key's file.  Returns the (possibly
mutated) dict together with the record actually written, if any.  When
`fetched_at` is not a `datetime`, `.isoformat()` raises before the
assignment, the `except` swallows it, and nothing is mutated or written;
`diskOk` models whether the file write itself succeeds. -/
def save_to_cache (key : String) (data : Envelope) (diskOk : Bool) :
    Envelope × Option (String × Envelope) :=
  match data.searchParameters.fetched_at with
  | .dt t =>
    let d := { data with
      searchParameters := { data.searchParameters with fetched_at := .iso t } }
    (d, if diskOk then some (key, d) else none)
  | _ => (data, none)

/-! ### Result extraction

The BeautifulSoup layer is modelled at the boundary of the library calls
the scraper makes: a fetched page is the document-order list of candidate
`div.snippet / news-snippet / video-snippet / card` elements, and each
candidate records what the `find` / `get_text` calls on it return. -/

/-- The first `<a href=...>` inside a candidate (`item.find("a", href=True)`):
its `href` attribute and its `get_text(strip=True)` text. -/
structure ATag where
  href : String
  text : String
  deriving DecidableEq, Repr

/-- One candidate result block, holding the results of the sub-element
lookups the extractor performs on it (`none` = the `find` returned no
element). -/
structure Item where
  a_tag : Option ATag
  title_elem : Option String
  snippet_elem : Option String
  date_elem : Option String
  full_text : String
  deriving DecidableEq, Repr

/-- The `result_url.split("/")[2]` domain derivation.  `none` models an
`IndexError` (fewer than three fields), which the scraper does not catch;
the `http(s)://` guard in fact rules it out (proved below). -/
def pyDomain (result_url : String) : Option String :=
  ((pySplitChar '/' result_url.toList).get? 2).map fun l => String.mk l

/-- The `for item in soup.find_all(...)` extraction loop of
`brave_search`, with `acc` the accepted results so far in reverse order.
`none` models an uncaught per-candidate exception escaping the loop. -/
def extract_results (limit : Int) (filter_domain : Option String) :
    List Item → List SearchResult → Option (List SearchResult)
  | [], acc => some acc.reverse
  | item :: rest, acc =>
    if (acc.length : Int) ≥ limit then some acc.reverse
    else
      match item.a_tag with
      | none => extract_results limit filter_domain rest acc
      | some a =>
        if !(pyStartsWith a.href "http://" || pyStartsWith a.href "https://") then
          extract_results limit filter_domain rest acc
        else
          let result_url := a.href
          if filter_domain.any (fun d => !(pyIn d result_url)) then
            extract_results limit filter_domain rest acc
          else
            let title := clean_text (item.title_elem.getD a.text)
            let snippet :=
              match item.snippet_elem with
              | some s => clean_text s
              | none => clean_text item.full_text
            let date : Option String :=
              match item.date_elem with
              | some d => some (clean_text d)
              | none => none
            if snippet.length < 30 || title.length < 5 then
              extract_results limit filter_domain rest acc
            else
              match pyDomain result_url with
              | none => none
              | some dom =>
                extract_results limit filter_domain rest
                  ({ position := acc.length + 1, title := title, link := result_url,
                     snippet := snippet, domain := dom,
                     date := match date with
                       | some c => if c = "" then none else some c
                       | none => none } :: acc)

/-! ### The orchestrator `brave_search` -/

/-- The headers dict built by `generate_headers` (the two faker-drawn
fields are the generator's inputs; the rest are the literal constants). -/
structure Headers where
  userAgent : String
  accept : String
  acceptEncoding : String
  acceptLanguage : String
  xForwardedFor : String
  connection : String
  deriving DecidableEq, Repr

/-- The function `generate_headers`, with the faker draws (`faker.user_agent()`,
`faker.ipv4_public()`) passed in. -/
def generate_headers (ua ip : String) : Headers :=
  { userAgent := ua
    accept := "text/html,application/xhtml+xml,application/xml;q=0.9,*/*;q=0.8"
    acceptEncoding := "gzip, deflate"
    acceptLanguage := "en-US,en;q=0.9,id-ID;q=0.8"
    xForwardedFor := ip
    connection := "keep-alive" }

/-- Outcome of `fetch_search_page` plus the `BeautifulSoup` parse: either
the candidate list of the parsed page, or the exception message of a
timeout / connection failure / `raise_for_status` error. -/
inductive FetchResult where
  | ok (page : List Item)
  | err (msg : String)
  deriving DecidableEq, Repr

/-- The ambient effects of one `brave_search` call: CPython's process
hash seed, the `datetime.now()` sample inside `load_from_cache`
(seconds), the faker draws, the `time.time()` samples (milliseconds) at
`start` and at envelope construction, the `datetime.now()` sample at
envelope construction (seconds), the fetch outcome, and whether the
cache file write succeeds. -/
structure Env where
  hashSeed : Nat
  nowLoad : Int
  ua : String
  ip : String
  start : Int
  tEnd : Int
  nowEnv : Int
  fetch : FetchResult
  diskOk : Bool

/-- The `status="error"` envelope built when the fetch raises; its
`fetched_at` is `datetime.now().isoformat()`, a string. -/
def error_envelope (query msg : String) (h : Headers) (env : Env) : Envelope :=
  { status := "error", message := some msg
    searchParameters :=
      { query := query, engine := "brave", gl := "id", hl := "id-id", type := "search"
        fetched_at := .iso env.nowEnv, latency_ms := env.tEnd - env.start }
    organic_results := []
    debug := { user_agent := h.userAgent, ip := h.xForwardedFor, result_count := 0 } }

/-- The `status="success"` envelope (`result_data`); its `fetched_at` is
the `datetime.now()` object itself. -/
def success_envelope (query : String) (rs : List SearchResult) (h : Headers) (env : Env) :
    Envelope :=
  { status := "success", message := none
    searchParameters :=
      { query := query, engine := "brave", gl := "id", hl := "id-id", type := "search"
        fetched_at := .dt env.nowEnv, latency_ms := env.tEnd - env.start }
    organic_results := rs
    debug := { user_agent := h.userAgent, ip := h.xForwardedFor, result_count := rs.length } }

/-- What one `brave_search` call did: the envelope it returned, the cache
record it wrote (key and pickled payload), and whether it attempted a
network fetch. -/
structure Outcome where
  ret : Envelope
  write : Option (String × Envelope)
  fetched : Bool
  deriving Repr

/-- The orchestrator `brave_search`.  The on-disk cache is a map from key to slot; `none`
models an uncaught exception escaping to the caller (the `try` only
covers the fetch and the soup construction).  The walrus
`if cached_result := load_from_cache(...)` test is truthiness of a
non-empty dict, i.e. `isSome` here. -/
def brave_search (query : String) (limit : Int) (filter_domain : Option String)
    (cache : String → CacheSlot) (env : Env) : Option Outcome :=
  let cache_key := get_cache_key env.hashSeed query
  match load_from_cache (cache cache_key) env.nowLoad with
  | some cached_result => some { ret := cached_result, write := none, fetched := false }
  | none =>
    let headers := generate_headers env.ua env.ip
    match env.fetch with
    | .err msg =>
      some { ret := error_envelope query msg headers env, write := none, fetched := true }
    | .ok page =>
      match extract_results limit filter_domain page [] with
      | none => none
      | some organic_results =>
        let result_data := success_envelope query organic_results headers env
        let saved := save_to_cache cache_key result_data env.diskOk
        some { ret := saved.1, write := saved.2, fetched := true }

/-! ### `readle.py`: the single-page article extractor -/

/-- A content container of the parsed page (the `<article>`, `<main>` or
`<body>` element), recorded as the `get_text()` strings of its
`find_all(["p", "h2", "h3"])` elements in document order. -/
structure Container where
  paragraphs : List String
  deriving DecidableEq, Repr

/-- The parsed page as `scrape_manual` inspects it: the optional
`<article>` and `<main>` containers, the `<body>` fallback, and the
`<title>` string when a title element exists. -/
structure PageData where
  article : Option Container
  mainTag : Option Container
  body : Container
  title : Option String
  deriving DecidableEq, Repr

/-- The record `scrape_manual` returns. -/
structure ManualRecord where
  title : String
  content : String
  source : String
  domain : String
  deriving DecidableEq, Repr

/-- Model of `urllib.parse.urlparse(url).netloc`: drop the scheme up to
the first `:` if any, then, when the remainder opens with `//`, take the
authority up to the next `/`, `?` or `#`; otherwise the netloc is empty. -/
def pyNetloc (url : String) : String :=
  let cs := url.toList
  let rest :=
    match cs.dropWhile (fun c => c ≠ ':') with
    | ':' :: r => r
    | _ => cs
  if listStarts ['/', '/'] rest then
    String.mk ((rest.drop 2).takeWhile (fun c => c ≠ '/' && c ≠ '?' && c ≠ '#'))
  else ""

/-- The function `scrape_manual` of `readle.py`.  The `requests.get` /
`raise_for_status` / parse outcome is the explicit `fetch` argument; a
failure propagates to the caller unchanged (there is no `try`).  On
success: pick `<article>`, else `<main>`, else `<body>`; the content is
the newline join of `clean_text(p.get_text())` over paragraphs/headings
whose stripped text is non-empty. -/
def scrape_manual (url : String) (fetch : Except String PageData) :
    Except String ManualRecord :=
  match fetch with
  | .error e => .error e
  | .ok page =>
    let article :=
      match page.article with
      | some c => c
      | none =>
        match page.mainTag with
        | some c => c
        | none => page.body
    let title :=
      match page.title with
      | some t => t.trim
      | none => "(no title)"
    let content :=
      String.intercalate "\n"
        ((article.paragraphs.filter (fun p => p.trim ≠ "")).map clean_text)
    .ok { title := title, content := content, source := url, domain := pyNetloc url }

/-! ### Specification predicates and demo inputs -/

/-- Positions `1, 2, …` in list order: the invariant of §3 of the spec,
`position` values are contiguous starting at 1. -/
def goodPos (l : List SearchResult) : Prop :=
  ∀ (i : Nat) (hi : i < l.length), (l.get ⟨i, hi⟩).position = i + 1

/-- The §6 success shape: `status="success"` and no `message` key. -/
def successShape (e : Envelope) : Prop := e.status = "success" ∧ e.message = none

/-- The §6 error shape: `status="error"`, a `message` key, empty
`organic_results` and `debug.result_count = 0`. -/
def errorShape (e : Envelope) : Prop :=
  e.status = "error" ∧ (∃ m, e.message = some m) ∧ e.organic_results = [] ∧
    e.debug.result_count = 0

/-- A well-formed envelope: one of the two §6 shapes. -/
def wellFormedEnvelope (e : Envelope) : Prop := successShape e ∨ errorShape e

/-- The §3 count invariant: `debug.result_count` equals the number of
organic results; on an error envelope the results are empty, the count is
zero and a `message` is present. -/
def countInv (e : Envelope) : Prop :=
  e.debug.result_count = e.organic_results.length ∧
    (e.status = "error" →
      e.organic_results = [] ∧ e.debug.result_count = 0 ∧ e.message.isSome = true)

/-- The envelope as it sits in the cache file (and is returned to the
first caller): the success envelope after `save_to_cache` has replaced
`fetched_at` by its ISO string. -/
def saved_envelope (query : String) (rs : List SearchResult) (h : Headers) (env : Env) :
    Envelope :=
  { status := "success", message := none
    searchParameters :=
      { query := query, engine := "brave", gl := "id", hl := "id-id", type := "search"
        fetched_at := .iso env.nowEnv, latency_ms := env.tEnd - env.start }
    organic_results := rs
    debug := { user_agent := h.userAgent, ip := h.xForwardedFor, result_count := rs.length } }

/-- The whitespace-normalized newline join `readle.py` builds from one
container's paragraph/heading texts. -/
def container_content (c : Container) : String :=
  String.intercalate "\n" ((c.paragraphs.filter (fun p => p.trim ≠ "")).map clean_text)

/-- A concrete well-formed candidate block, for witnesses. -/
def demoItem : Item :=
  { a_tag := some { href := "https://example.com/post", text := "Example link" }
    title_elem := some "A Good Title"
    snippet_elem := some "This example snippet is comfortably longer than thirty characters."
    date_elem := none
    full_text := "ignored" }

/-- A concrete run whose fetch succeeds with two good candidates. -/
def demoEnvFetchOk : Env :=
  { hashSeed := 7, nowLoad := 0, ua := "UA", ip := "1.2.3.4", start := 10, tEnd := 25,
    nowEnv := 500, fetch := .ok [demoItem, demoItem], diskOk := true }

/-- A concrete run whose fetch succeeds with an empty page. -/
def demoEnvOkEmpty : Env :=
  { hashSeed := 7, nowLoad := 0, ua := "UA", ip := "1.2.3.4", start := 10, tEnd := 25,
    nowEnv := 500, fetch := .ok [], diskOk := true }

/-- A concrete run whose fetch raises a timeout. -/
def demoEnvFetchErr : Env :=
  { hashSeed := 7, nowLoad := 0, ua := "UA", ip := "1.2.3.4", start := 10, tEnd := 25,
    nowEnv := 500, fetch := .err "timeout", diskOk := true }

/-- A concrete later run of the same process (same hash seed), 100
seconds after `demoEnvOkEmpty` stored its envelope. -/
def demoEnvSecond : Env :=
  { hashSeed := 7, nowLoad := 600, ua := "UB", ip := "5.6.7.8", start := 0, tEnd := 3,
    nowEnv := 601, fetch := .err "net down", diskOk := false }

/-- The empty cache directory. -/
def emptyCache : String → CacheSlot := fun _ => CacheSlot.absent

/-- A concrete success envelope carrying a `datetime` `fetched_at`. -/
def demoEnvelope : Envelope :=
  { status := "success", message := none
    searchParameters :=
      { query := "lean", engine := "brave", gl := "id", hl := "id-id", type := "search"
        fetched_at := .dt 5, latency_ms := 12 }
    organic_results := []
    debug := { user_agent := "UA", ip := "1.2.3.4", result_count := 0 } }

/-! ### Helper lemmas -/

lemma pySplitChar_ne_nil (sep : Char) (cs : List Char) : pySplitChar sep cs ≠ [] := by
  induction cs with
  | nil => simp [pySplitChar]
  | cons c cs ih =>
    by_cases hc : c = sep
    · simp [pySplitChar, hc]
    · simp only [pySplitChar, if_neg hc]
      cases h : pySplitChar sep cs <;> simp

lemma listStarts_eq_append {pre cs : List Char} (h : listStarts pre cs = true) :
    ∃ rest, cs = pre ++ rest := by
  induction pre generalizing cs with
  | nil => exact ⟨cs, rfl⟩
  | cons p ps ih =>
    cases cs with
    | nil => simp [listStarts] at h
    | cons c cs' =>
      simp only [listStarts, Bool.and_eq_true, beq_iff_eq] at h
      obtain ⟨hpc, hps⟩ := h
      obtain ⟨rest, hr⟩ := ih hps
      subst hpc
      exact ⟨rest, by simp [hr]⟩

lemma pySplitChar_cons_of_ne (sep c : Char) (cs : List Char) (h : ¬ c = sep) :
    (pySplitChar sep (c :: cs)).length = (pySplitChar sep cs).length := by
  simp only [pySplitChar, if_neg h]
  cases hq : pySplitChar sep cs with
  | nil => exact absurd hq (pySplitChar_ne_nil sep cs)
  | cons a t => simp

lemma pySplitChar_slash_slash (rest : List Char) :
    3 ≤ (pySplitChar '/' ('/' :: '/' :: rest)).length := by
  have h1 : pySplitChar '/' rest ≠ [] := pySplitChar_ne_nil '/' rest
  have h2 : 0 < (pySplitChar '/' rest).length := List.length_pos.mpr h1
  have he : pySplitChar '/' ('/' :: '/' :: rest) = [] :: [] :: pySplitChar '/' rest := by
    rw [pySplitChar, if_pos rfl, pySplitChar, if_pos rfl]
  rw [he, List.length_cons, List.length_cons]
  omega

/-- The `http(s)://` guard makes the `[2]` index of `split("/")` safe. -/
lemma pyDomain_isSome_of_http {s : String}
    (h : (pyStartsWith s "http://" || pyStartsWith s "https://") = true) :
    ∃ dom, pyDomain s = some dom := by
  have h3 : 3 ≤ (pySplitChar '/' s.toList).length := by
    rcases Bool.or_eq_true_iff.mp h with h' | h'
    · obtain ⟨rest, hr⟩ := listStarts_eq_append h'
      have he : ("http://".toList : List Char) = ['h', 't', 't', 'p', ':', '/', '/'] := rfl
      rw [he] at hr
      rw [hr]
      show 3 ≤ (pySplitChar '/' ('h' :: 't' :: 't' :: 'p' :: ':' :: '/' :: '/' :: rest)).length
      rw [pySplitChar_cons_of_ne '/' 'h' _ (by decide),
        pySplitChar_cons_of_ne '/' 't' _ (by decide),
        pySplitChar_cons_of_ne '/' 't' _ (by decide),
        pySplitChar_cons_of_ne '/' 'p' _ (by decide),
        pySplitChar_cons_of_ne '/' ':' _ (by decide)]
      exact pySplitChar_slash_slash rest
    · obtain ⟨rest, hr⟩ := listStarts_eq_append h'
      have he : ("https://".toList : List Char) = ['h', 't', 't', 'p', 's', ':', '/', '/'] := rfl
      rw [he] at hr
      rw [hr]
      show 3 ≤ (pySplitChar '/' ('h' :: 't' :: 't' :: 'p' :: 's' :: ':' :: '/' :: '/' :: rest)).length
      rw [pySplitChar_cons_of_ne '/' 'h' _ (by decide),
        pySplitChar_cons_of_ne '/' 't' _ (by decide),
        pySplitChar_cons_of_ne '/' 't' _ (by decide),
        pySplitChar_cons_of_ne '/' 'p' _ (by decide),
        pySplitChar_cons_of_ne '/' 's' _ (by decide),
        pySplitChar_cons_of_ne '/' ':' _ (by decide)]
      exact pySplitChar_slash_slash rest
  rcases hl : pySplitChar '/' s.toList with _ | ⟨a, _ | ⟨b, _ | ⟨c, t⟩⟩⟩ <;>
    rw [hl] at h3 <;> simp at h3
  exact ⟨String.mk c, by unfold pyDomain; rw [hl]; rfl⟩

/-- The extraction loop never lets an exception escape: the only unguarded
partial operation, `result_url.split("/")[2]`, sits behind the absolute-URL
guard. -/
lemma extract_results_total (limit : Int) (fd : Option String) (items : List Item) :
    ∀ acc, ∃ rs, extract_results limit fd items acc = some rs := by
  induction items with
  | nil => intro acc; exact ⟨acc.reverse, rfl⟩
  | cons item rest ih =>
    intro acc
    rw [extract_results]
    split
    · exact ⟨acc.reverse, rfl⟩
    split
    · exact ih acc
    next a ha =>
      by_cases hg : (pyStartsWith a.href "http://" || pyStartsWith a.href "https://") = true
      · rw [if_neg (by simp [hg])]
        dsimp only
        repeat' split
        all_goals
          first
          | exact ih _
          | (next heq =>
              obtain ⟨dom, hd⟩ := pyDomain_isSome_of_http hg
              rw [hd] at heq
              cases heq)
      · rw [if_pos (by simp [Bool.not_eq_true] at hg ⊢; exact hg)]
        exact ih acc

/-- The accepted-results accumulator never grows past the limit. -/
lemma extract_results_length_le (limit : Int) (fd : Option String) (items : List Item) :
    ∀ acc rs, (acc.length : Int) ≤ limit →
      extract_results limit fd items acc = some rs → (rs.length : Int) ≤ limit := by
  induction items with
  | nil =>
    intro acc rs hacc h
    rw [extract_results] at h
    cases h
    simpa using hacc
  | cons item rest ih =>
    intro acc rs hacc h
    rw [extract_results] at h
    split at h
    · cases h; simpa using hacc
    next hlim =>
      split at h
      · exact ih acc rs hacc h
      next a ha =>
        split at h
        · exact ih acc rs hacc h
        next hg =>
          dsimp only at h
          repeat' split at h
          all_goals
            first
            | exact ih _ rs hacc h
            | exact ih _ rs (by simp only [List.length_cons]; push_cast at *; omega) h
            | cases h

lemma goodPos_append (l : List SearchResult) (r : SearchResult)
    (hl : goodPos l) (hr : r.position = l.length + 1) : goodPos (l ++ [r]) := by
  intro i hi
  rcases Nat.lt_or_ge i l.length with h | h
  · have hb := hl i h
    rw [List.get_eq_getElem] at hb ⊢
    rwa [List.getElem_append_left h]
  · have hieq : i = l.length := by
      have := hi
      simp only [List.length_append, List.length_cons, List.length_nil] at this
      omega
    rw [List.get_eq_getElem, List.getElem_concat_length l r i hieq, hr, hieq]

/-- The extraction loop assigns `position := 1 + accepted-so-far`. -/
lemma extract_results_goodPos (limit : Int) (fd : Option String) (items : List Item) :
    ∀ acc rs, goodPos acc.reverse →
      extract_results limit fd items acc = some rs → goodPos rs := by
  induction items with
  | nil =>
    intro acc rs hacc h
    rw [extract_results] at h
    cases h
    exact hacc
  | cons item rest ih =>
    intro acc rs hacc h
    rw [extract_results] at h
    split at h
    · cases h; exact hacc
    next hlim =>
      split at h
      · exact ih acc rs hacc h
      next a ha =>
        split at h
        · exact ih acc rs hacc h
        next hg =>
          dsimp only at h
          repeat' split at h
          all_goals
            first
            | exact ih _ rs hacc h
            | exact ih _ rs
                (by
                  rw [List.reverse_cons]
                  exact goodPos_append _ _ hacc (by simp)) h
            | cases h

/-- A cache miss stays a miss at any later read time (staleness is
monotone; the other failure modes do not depend on the clock). -/
lemma load_from_cache_none_mono {slot : CacheSlot} {now now' : Int}
    (h : load_from_cache slot now = none) (hle : now ≤ now') :
    load_from_cache slot now' = none := by
  cases slot with
  | absent => rfl
  | corrupt => rfl
  | stored p =>
    rcases hfa : p.searchParameters.fetched_at with t | t | _ | _ <;>
      simp only [load_from_cache, hfa] at h ⊢
    · split at h
      · cases h
      · rw [if_neg (by omega)]
    · split at h
      · cases h
      · rw [if_neg (by omega)]

lemma save_to_cache_success (key query : String) (rs : List SearchResult) (h : Headers)
    (env : Env) (dOk : Bool) :
    save_to_cache key (success_envelope query rs h env) dOk =
      (saved_envelope query rs h env,
        if dOk then some (key, saved_envelope query rs h env) else none) := rfl

lemma brave_search_cache_hit {q : String} {L : Int} {fd : Option String}
    {cache : String → CacheSlot} {env : Env} {p : Envelope}
    (h : load_from_cache (cache (get_cache_key env.hashSeed q)) env.nowLoad = some p) :
    brave_search q L fd cache env = some ⟨p, none, false⟩ := by
  simp only [brave_search, h]

lemma brave_search_fetch_err {q : String} {L : Int} {fd : Option String}
    {cache : String → CacheSlot} {env : Env} {msg : String}
    (hmiss : load_from_cache (cache (get_cache_key env.hashSeed q)) env.nowLoad = none)
    (hf : env.fetch = .err msg) :
    brave_search q L fd cache env =
      some ⟨error_envelope q msg (generate_headers env.ua env.ip) env, none, true⟩ := by
  simp only [brave_search, hmiss, hf]

lemma brave_search_fetch_ok {q : String} {L : Int} {fd : Option String}
    {cache : String → CacheSlot} {env : Env} {page : List Item} {rs : List SearchResult}
    (hmiss : load_from_cache (cache (get_cache_key env.hashSeed q)) env.nowLoad = none)
    (hf : env.fetch = .ok page)
    (hx : extract_results L fd page [] = some rs) :
    brave_search q L fd cache env =
      some ⟨saved_envelope q rs (generate_headers env.ua env.ip) env,
        if env.diskOk then
          some (get_cache_key env.hashSeed q,
            saved_envelope q rs (generate_headers env.ua env.ip) env)
        else none,
        true⟩ := by
  simp only [brave_search, hmiss, hf, hx, save_to_cache_success]

/-- Whenever a call writes a cache record, the record's key is the
query's key, the record equals the envelope the caller received, and its
`fetched_at` is the ISO string of this call's clock sample. -/
lemma brave_search_write_inv {q : String} {L : Int} {fd : Option String}
    {cache : String → CacheSlot} {env : Env} {o : Outcome} {k : String} {w : Envelope}
    (h : brave_search q L fd cache env = some o) (hw : o.write = some (k, w)) :
    k = get_cache_key env.hashSeed q ∧ o.ret = w ∧
      w.searchParameters.fetched_at = .iso env.nowEnv := by
  rcases hload : load_from_cache (cache (get_cache_key env.hashSeed q)) env.nowLoad with _ | p
  · rcases hf : env.fetch with page | msg
    · obtain ⟨rs, hx⟩ := extract_results_total L fd page []
      rw [brave_search_fetch_ok hload hf hx] at h
      cases h
      rcases hdisk : env.diskOk with _ | _ <;> rw [hdisk] at hw
      · cases hw
      · rw [if_pos rfl] at hw
        obtain ⟨hk, hwv⟩ := Prod.mk.injEq .. ▸ Option.some.inj hw
        exact ⟨hk.symm, hwv ▸ rfl, hwv ▸ rfl⟩
    · rw [brave_search_fetch_err hload hf] at h
      cases h
      cases hw
  · rw [brave_search_cache_hit hload] at h
    cases h
    cases hw

/-! ### Claim theorems -/

/-- C5: `load_from_cache` is a total function (the `except: pass`
swallows every failure), and it returns a stored entry exactly when the
record exists, deserializes, carries a `datetime` or valid-ISO-string
timestamp `t`, and `now - t` is strictly less than 24 hours; a missing
record, a corrupt record, a missing or invalid timestamp, and an entry
24 hours or more in the past are all misses. -/
theorem load_from_cache_hit_iff (slot : CacheSlot) (now : Int) (p : Envelope) :
    load_from_cache slot now = some p ↔
      slot = CacheSlot.stored p ∧
        ∃ t, (p.searchParameters.fetched_at = TimeVal.dt t ∨
              p.searchParameters.fetched_at = TimeVal.iso t) ∧
          now - t < 24 * 3600 := by
  constructor
  · intro h
    cases slot with
    | absent => simp [load_from_cache] at h
    | corrupt => simp [load_from_cache] at h
    | stored q =>
      rcases hfa : q.searchParameters.fetched_at with t | t | _ | _ <;>
        simp only [load_from_cache, hfa] at h
      · split at h
        next hlt => cases h; exact ⟨rfl, t, Or.inl hfa, hlt⟩
        · cases h
      · split at h
        next hlt => cases h; exact ⟨rfl, t, Or.inr hfa, hlt⟩
        · cases h
      · cases h
      · cases h
  · rintro ⟨rfl, t, hfa | hfa, hlt⟩ <;>
      simp only [load_from_cache, hfa] <;> rw [if_pos hlt]

/-- C5 witness: a one-hour-old stored entry is returned unchanged. -/
theorem load_from_cache_hit_iff_witness :
    load_from_cache (CacheSlot.stored demoEnvelope) 100 = some demoEnvelope :=
  (load_from_cache_hit_iff (CacheSlot.stored demoEnvelope) 100 demoEnvelope).mpr
    ⟨rfl, 5, Or.inl rfl, by decide⟩

/-- C2: for every query, limit, domain filter, cache contents (whose
stored payloads are well-formed) and fetch outcome — any page, including
structurally anomalous candidates — `brave_search` returns `some`
envelope (no exception escapes to its caller) and that envelope has one
of the two §6 shapes. -/
theorem brave_search_never_raises (q : String) (L : Int) (fd : Option String)
    (cache : String → CacheSlot) (env : Env)
    (hcache : ∀ k p, cache k = CacheSlot.stored p → wellFormedEnvelope p) :
    ∃ o, brave_search q L fd cache env = some o ∧ wellFormedEnvelope o.ret := by
  rcases hload : load_from_cache (cache (get_cache_key env.hashSeed q)) env.nowLoad with _ | p
  · rcases hf : env.fetch with page | msg
    · obtain ⟨rs, hx⟩ := extract_results_total L fd page []
      exact ⟨_, brave_search_fetch_ok hload hf hx, Or.inl ⟨rfl, rfl⟩⟩
    · exact ⟨_, brave_search_fetch_err hload hf, Or.inr ⟨rfl, ⟨msg, rfl⟩, rfl, rfl⟩⟩
  · have hstored := ((load_from_cache_hit_iff _ _ _).mp hload).1
    exact ⟨_, brave_search_cache_hit hload, hcache _ p hstored⟩

/-- C2 witness: a concrete failed-fetch run on an empty cache returns a
well-formed envelope. -/
theorem brave_search_never_raises_witness :
    ∃ o, brave_search "lean" 10 none emptyCache demoEnvFetchErr = some o ∧
      wellFormedEnvelope o.ret :=
  brave_search_never_raises "lean" 10 none emptyCache demoEnvFetchErr
    (fun _ _ h => nomatch h)

/-- C3: on a cache miss whose fetch raises with message `msg ≠ ""`, the
call returns an error envelope carrying that (non-empty) message, empty
results, `result_count = 0`, latency measured from the recorded start,
debug fields from the generated profile — and writes nothing to the
cache, so any later call of the same run (same hash seed, clock not
rewound) on the unchanged cache again attempts a network fetch. -/
theorem brave_search_fetch_failure (q : String) (L : Int) (fd : Option String)
    (cache : String → CacheSlot) (env : Env) (msg : String)
    (hmiss : load_from_cache (cache (get_cache_key env.hashSeed q)) env.nowLoad = none)
    (hf : env.fetch = FetchResult.err msg) (hmsg : msg ≠ "") :
    ∃ o, brave_search q L fd cache env = some o ∧
      o.ret.status = "error" ∧ o.ret.message = some msg ∧ o.ret.message ≠ some "" ∧
      o.ret.organic_results = [] ∧ o.ret.debug.result_count = 0 ∧
      o.ret.searchParameters.latency_ms = env.tEnd - env.start ∧
      o.ret.debug.user_agent = env.ua ∧ o.ret.debug.ip = env.ip ∧
      o.write = none ∧
      ∀ env₂ : Env, env₂.hashSeed = env.hashSeed → env.nowLoad ≤ env₂.nowLoad →
        ∃ o₂, brave_search q L fd cache env₂ = some o₂ ∧ o₂.fetched = true := by
  refine ⟨_, brave_search_fetch_err hmiss hf, rfl, rfl, ?_, rfl, rfl, rfl, rfl, rfl, rfl, ?_⟩
  · exact fun hcon => hmsg (Option.some.inj hcon)
  · intro env₂ hseed hle
    have hmiss₂ : load_from_cache (cache (get_cache_key env₂.hashSeed q)) env₂.nowLoad
        = none := by
      rw [hseed]
      exact load_from_cache_none_mono hmiss hle
    rcases hf₂ : env₂.fetch with page | m
    · obtain ⟨rs, hx⟩ := extract_results_total L fd page []
      exact ⟨_, brave_search_fetch_ok hmiss₂ hf₂ hx, rfl⟩
    · exact ⟨_, brave_search_fetch_err hmiss₂ hf₂, rfl⟩

/-- C3 witness: the concrete timeout run on the empty cache. -/
theorem brave_search_fetch_failure_witness :
    ∃ o, brave_search "lean" 10 none emptyCache demoEnvFetchErr = some o ∧
      o.ret.status = "error" ∧ o.ret.message = some "timeout" ∧ o.ret.message ≠ some "" ∧
      o.ret.organic_results = [] ∧ o.ret.debug.result_count = 0 ∧
      o.ret.searchParameters.latency_ms = demoEnvFetchErr.tEnd - demoEnvFetchErr.start ∧
      o.ret.debug.user_agent = demoEnvFetchErr.ua ∧ o.ret.debug.ip = demoEnvFetchErr.ip ∧
      o.write = none ∧
      ∀ env₂ : Env, env₂.hashSeed = demoEnvFetchErr.hashSeed →
        demoEnvFetchErr.nowLoad ≤ env₂.nowLoad →
        ∃ o₂, brave_search "lean" 10 none emptyCache env₂ = some o₂ ∧ o₂.fetched = true :=
  brave_search_fetch_failure "lean" 10 none emptyCache demoEnvFetchErr "timeout"
    rfl rfl (by decide)

/-- C4: if a call for query `q` stores a cache record, then the caller
received exactly that record's payload, and a second call of the same
run (same hash seed) for `q` within 24 hours of the stored timestamp —
the cache updated only by that one write — returns the stored payload
unchanged, writes nothing, and performs no network fetch. -/
theorem brave_search_cache_hit_idempotent (q : String) (L : Int) (fd : Option String)
    (cache : String → CacheSlot) (env₁ env₂ : Env) (o₁ : Outcome) (k : String) (w : Envelope)
    (h₁ : brave_search q L fd cache env₁ = some o₁)
    (hw : o₁.write = some (k, w))
    (hseed : env₂.hashSeed = env₁.hashSeed)
    (hfresh : env₂.nowLoad - env₁.nowEnv < 24 * 3600) :
    o₁.ret = w ∧
      ∃ o₂,
        brave_search q L fd (fun key => if key = k then CacheSlot.stored w else cache key) env₂
          = some o₂ ∧ o₂.ret = w ∧ o₂.ret = o₁.ret ∧ o₂.write = none ∧ o₂.fetched = false := by
  obtain ⟨hk, hrw, hfa⟩ := brave_search_write_inv h₁ hw
  refine ⟨hrw, ?_⟩
  have hkey : get_cache_key env₂.hashSeed q = k := by rw [hseed, hk]
  have hslot : (fun key => if key = k then CacheSlot.stored w else cache key)
      (get_cache_key env₂.hashSeed q) = CacheSlot.stored w := by
    simp [hkey]
  have hload : load_from_cache
      ((fun key => if key = k then CacheSlot.stored w else cache key)
        (get_cache_key env₂.hashSeed q)) env₂.nowLoad = some w := by
    rw [hslot]
    simp only [load_from_cache, hfa]
    rw [if_pos hfresh]
  exact ⟨_, brave_search_cache_hit hload, rfl, hrw.symm, rfl, rfl⟩

/-- C4 witness: a concrete successful first call (empty page, cache
written), then a hit 100 seconds later returning the stored payload. -/
theorem brave_search_cache_hit_idempotent_witness :
    (Outcome.mk (saved_envelope "lean" [] (generate_headers "UA" "1.2.3.4") demoEnvOkEmpty)
        (some (get_cache_key 7 "lean",
          saved_envelope "lean" [] (generate_headers "UA" "1.2.3.4") demoEnvOkEmpty))
        true).ret
      = saved_envelope "lean" [] (generate_headers "UA" "1.2.3.4") demoEnvOkEmpty ∧
    ∃ o₂, brave_search "lean" 10 none
        (fun key => if key = get_cache_key 7 "lean"
          then CacheSlot.stored
            (saved_envelope "lean" [] (generate_headers "UA" "1.2.3.4") demoEnvOkEmpty)
          else emptyCache key) demoEnvSecond
        = some o₂ ∧
      o₂.ret = saved_envelope "lean" [] (generate_headers "UA" "1.2.3.4") demoEnvOkEmpty ∧
      o₂.ret = (Outcome.mk
          (saved_envelope "lean" [] (generate_headers "UA" "1.2.3.4") demoEnvOkEmpty)
          (some (get_cache_key 7 "lean",
            saved_envelope "lean" [] (generate_headers "UA" "1.2.3.4") demoEnvOkEmpty))
          true).ret ∧
      o₂.write = none ∧ o₂.fetched = false :=
  brave_search_cache_hit_idempotent "lean" 10 none emptyCache demoEnvOkEmpty demoEnvSecond
    _ (get_cache_key 7 "lean")
    (saved_envelope "lean" [] (generate_headers "UA" "1.2.3.4") demoEnvOkEmpty)
    rfl rfl rfl (by decide)

/-- C6: with `limit = L ≥ 0`, on a cache miss whose fetch returns any
page, the extraction loop stops at `L` accepted results, so the returned
envelope's `organic_results` has length at most `L` (in particular `L = 0`
yields an empty list). -/
theorem brave_search_limit_bound (q : String) (L : Int) (fd : Option String)
    (cache : String → CacheSlot) (env : Env) (page : List Item)
    (hL : 0 ≤ L)
    (hmiss : load_from_cache (cache (get_cache_key env.hashSeed q)) env.nowLoad = none)
    (hf : env.fetch = FetchResult.ok page) :
    ∃ o, brave_search q L fd cache env = some o ∧
      (o.ret.organic_results.length : Int) ≤ L := by
  obtain ⟨rs, hx⟩ := extract_results_total L fd page []
  refine ⟨_, brave_search_fetch_ok hmiss hf hx, ?_⟩
  exact extract_results_length_le L fd page [] rs (by simpa using hL) hx

/-- C6 witness: limit 1 over a page with two qualifying candidates. -/
theorem brave_search_limit_bound_witness :
    ∃ o, brave_search "lean" 1 none emptyCache demoEnvFetchOk = some o ∧
      (o.ret.organic_results.length : Int) ≤ 1 :=
  brave_search_limit_bound "lean" 1 none emptyCache demoEnvFetchOk [demoItem, demoItem]
    (by decide) rfl rfl

/-- C7: every envelope `brave_search` returns (out of a cache whose
stored payloads satisfy the contract, as every record the program itself
writes does) has `organic_results[i].position = i + 1` for all `i`:
positions are contiguous from 1, counting only accepted candidates. -/
theorem brave_search_position_contract (q : String) (L : Int) (fd : Option String)
    (cache : String → CacheSlot) (env : Env)
    (hcache : ∀ k p, cache k = CacheSlot.stored p → goodPos p.organic_results) :
    ∃ o, brave_search q L fd cache env = some o ∧ goodPos o.ret.organic_results := by
  rcases hload : load_from_cache (cache (get_cache_key env.hashSeed q)) env.nowLoad with _ | p
  · rcases hf : env.fetch with page | msg
    · obtain ⟨rs, hx⟩ := extract_results_total L fd page []
      refine ⟨_, brave_search_fetch_ok hload hf hx, ?_⟩
      exact extract_results_goodPos L fd page [] rs (fun i hi => absurd hi (by simp)) hx
    · refine ⟨_, brave_search_fetch_err hload hf, ?_⟩
      intro i hi
      exact absurd hi (by simp [error_envelope])
  · exact ⟨_, brave_search_cache_hit hload,
      hcache _ p ((load_from_cache_hit_iff _ _ _).mp hload).1⟩

/-- C7 witness: concrete two-result run; positions are 1 and 2. -/
theorem brave_search_position_contract_witness :
    ∃ o, brave_search "lean" 10 none emptyCache demoEnvFetchOk = some o ∧
      goodPos o.ret.organic_results :=
  brave_search_position_contract "lean" 10 none emptyCache demoEnvFetchOk
    (fun _ _ h => nomatch h)

/-- C8: every envelope `brave_search` returns (out of a cache whose
stored payloads satisfy the invariant, as every record the program itself
writes does) has `debug.result_count = organic_results.length`, and on
`status = "error"` the results are empty, the count is 0 and a `message`
is present. -/
theorem brave_search_result_count_inv (q : String) (L : Int) (fd : Option String)
    (cache : String → CacheSlot) (env : Env)
    (hcache : ∀ k p, cache k = CacheSlot.stored p → countInv p) :
    ∃ o, brave_search q L fd cache env = some o ∧ countInv o.ret := by
  rcases hload : load_from_cache (cache (get_cache_key env.hashSeed q)) env.nowLoad with _ | p
  · rcases hf : env.fetch with page | msg
    · obtain ⟨rs, hx⟩ := extract_results_total L fd page []
      refine ⟨_, brave_search_fetch_ok hload hf hx, rfl, ?_⟩
      intro habs
      simp [saved_envelope] at habs
    · exact ⟨_, brave_search_fetch_err hload hf, rfl, fun _ => ⟨rfl, rfl, rfl⟩⟩
  · exact ⟨_, brave_search_cache_hit hload,
      hcache _ p ((load_from_cache_hit_iff _ _ _).mp hload).1⟩

/-- C8 witness: the concrete failed-fetch run satisfies the count
invariant. -/
theorem brave_search_result_count_inv_witness :
    ∃ o, brave_search "lean" 10 none emptyCache demoEnvFetchErr = some o ∧ countInv o.ret :=
  brave_search_result_count_inv "lean" 10 none emptyCache demoEnvFetchErr
    (fun _ _ h => nomatch h)

/-- C1 (failing input): `get_cache_key` is `str(hash(query))`, and
CPython's string `hash` is salted by the per-process seed
(`PYTHONHASHSEED`), so two runs of the program with different seeds
derive different cache keys for the very same query `"a"` — the key is
not stable across process restarts.  (Within one run the key is a
function of the query, since the seed is fixed: `get_cache_key seed q`
is deterministic by definition.) -/
theorem get_cache_key_unstable_across_runs :
    get_cache_key 0 "a" ≠ get_cache_key 1 "a" := by decide

/-- C9: `scrape_manual` propagates a fetch/parse failure unchanged to
its caller (no envelope, no cache), and on success returns a record
whose `source` is the url, whose `domain` is the url's netloc, and whose
`content` is the whitespace-normalized newline join of the non-blank
paragraph/heading texts of the `<article>` container when present, else
the `<main>` container, else the page body. -/
theorem scrape_manual_contract (url e : String) (page : PageData) :
    scrape_manual url (Except.error e) = Except.error e ∧
      ∃ r, scrape_manual url (Except.ok page) = Except.ok r ∧
        r.source = url ∧ r.domain = pyNetloc url ∧
        (∀ c, page.article = some c → r.content = container_content c) ∧
        (page.article = none → ∀ c, page.mainTag = some c →
          r.content = container_content c) ∧
        (page.article = none → page.mainTag = none →
          r.content = container_content page.body) := by
  refine ⟨rfl, _, rfl, rfl, rfl, ?_, ?_, ?_⟩
  · intro c hc
    simp only [scrape_manual, hc, container_content]
  · intro ha c hm
    simp only [scrape_manual, ha, hm, container_content]
  · intro ha hm
    simp only [scrape_manual, ha, hm, container_content]

/-- C9 witness: a concrete page with an `<article>` container; the blank
paragraph is dropped and the kept ones are whitespace-normalized. -/
theorem scrape_manual_contract_witness :
    ∃ r, scrape_manual "https://example.com/a"
        (Except.ok { article := some { paragraphs := ["hello   world", "   "] }
                     mainTag := none
                     body := { paragraphs := ["unused"] }
                     title := some " T " }) = Except.ok r ∧
      r.content = container_content { paragraphs := ["hello   world", "   "] } := by
  obtain ⟨-, r, hr, -, -, hart, -, -⟩ :=
    scrape_manual_contract "https://example.com/a" "boom"
      { article := some { paragraphs := ["hello   world", "   "] }
        mainTag := none
        body := { paragraphs := ["unused"] }
        title := some " T " }
  exact ⟨r, hr, hart { paragraphs := ["hello   world", "   "] } rfl⟩

/-- C10: `save_to_cache` mutates its argument in place — when
`fetched_at` is a `datetime` it is replaced by its ISO string and no
other field changes — and, since `brave_search` runs it on the success
envelope before returning, whenever a call writes a cache record the
envelope the first caller receives is exactly the stored record, with
`fetched_at` the ISO string of this call's clock sample. -/
theorem save_to_cache_inplace_mutation (key : String) (data : Envelope) (dOk : Bool) (t : Int)
    (h : data.searchParameters.fetched_at = TimeVal.dt t) :
    (save_to_cache key data dOk).1 =
      { data with
        searchParameters := { data.searchParameters with fetched_at := TimeVal.iso t } } ∧
      ∀ (q : String) (L : Int) (fd : Option String) (cache : String → CacheSlot) (env : Env)
        (o : Outcome) (k : String) (w : Envelope),
        brave_search q L fd cache env = some o → o.write = some (k, w) →
        o.ret = w ∧ o.ret.searchParameters.fetched_at = TimeVal.iso env.nowEnv := by
  constructor
  · simp only [save_to_cache, h]
  · intro q L fd cache env o k w h₁ hw
    obtain ⟨-, hrw, hfa⟩ := brave_search_write_inv h₁ hw
    exact ⟨hrw, by rw [hrw]; exact hfa⟩

/-- C10 witness: the concrete envelope's `datetime` 5 becomes the ISO
string of 5, in the returned (mutated) dict. -/
theorem save_to_cache_inplace_mutation_witness :
    (save_to_cache "77" demoEnvelope true).1.searchParameters.fetched_at = TimeVal.iso 5 := by
  rw [(save_to_cache_inplace_mutation "77" demoEnvelope true 5 rfl).1]

end Scraper


